import Mathlib

/-!
Verification of the web-entity prober in `src/store_pg.js` (the
`checkWebEntityStatus` core: URL normalization with SSRF guard, DNS
resolution with post-resolution re-check, bounded fetch with manual
redirect handling and byte cap, HTML signal extraction, and the
confidence scorer).

Modelling conventions:
* JS strings are Lean `String`s; character-level operations are carried
  out on `List Char` through small executable helpers that mirror the
  JavaScript semantics used by the source (`includes`, `startsWith`,
  `endsWith`, `toLowerCase` restricted to ASCII case mapping).
* Platform services (the WHATWG `URL` parser, `dns.resolve4/6`,
  `node-fetch`, `Date.now`) are oracle fields of an environment record:
  the code under verification is a pure function of that environment.
  `dns.resolve4/6` return `Option (List String)` where `none` models a
  thrown lookup error (the source swallows it with `catch {}`).
* Wall-clock time is a `Nat` clock threaded through the fetcher; every
  network hop advances it by the oracle-specified duration of that hop's
  request (`fetchMs`) and body read (`readMs`).
* Response body chunks are modelled as their decoded UTF-8 text; the
  byte length of a chunk is its UTF-8 byte size (valid-UTF-8 chunks; the
  spec explicitly allows ignoring decode artifacts at the cap boundary).
* JS numbers in the scorer are modelled as `ℚ` (the weights 0.35, 0.15,
  0.10, 0.25 are written 35/100, 15/100, 10/100, 25/100).
* Errors are the thrown `Error` message strings, in `Except String`.
-/

namespace WebEntity

/-! ## Character and string helpers (JS semantics) -/

/-- ASCII lower-casing of one character, as `String.prototype.toLowerCase`
acts on ASCII input. -/
def charLower (c : Char) : Char :=
  if 65 ≤ c.toNat ∧ c.toNat ≤ 90 then Char.ofNat (c.toNat + 32) else c

/-- `s.toLowerCase()` (ASCII range). -/
def strToLower (s : String) : String :=
  String.mk (s.toList.map charLower)

/-- Decimal digit test. -/
def isDigitChar (c : Char) : Bool :=
  decide (48 ≤ c.toNat ∧ c.toNat ≤ 57)

/-- Hexadecimal digit test. -/
def isHexDigitChar (c : Char) : Bool :=
  isDigitChar c || decide (97 ≤ c.toNat ∧ c.toNat ≤ 102) ||
    decide (65 ≤ c.toNat ∧ c.toNat ≤ 70)

/-- Is the pattern a prefix of the text? -/
def isPrefixOfL : List Char → List Char → Bool
  | [], _ => true
  | _ :: _, [] => false
  | a :: as, b :: bs => if a = b then isPrefixOfL as bs else false

/-- Does the pattern occur anywhere in the text (JS `String.prototype.includes`)? -/
def isInfixOfL (p : List Char) : List Char → Bool
  | [] => isPrefixOfL p []
  | b :: bs => isPrefixOfL p (b :: bs) || isInfixOfL p bs

/-- JS `s.startsWith(p)`. -/
def strStartsWith (s p : String) : Bool :=
  isPrefixOfL p.toList s.toList

/-- JS `s.endsWith(p)`. -/
def strEndsWith (s p : String) : Bool :=
  isPrefixOfL p.toList.reverse s.toList.reverse

/-- JS `s.includes(p)`. -/
def strIncludes (s p : String) : Bool :=
  isInfixOfL p.toList s.toList

/-- The whitespace class stripped by `String.prototype.trim`
(ASCII whitespace plus no-break space and BOM). -/
def isJsSpace (c : Char) : Bool :=
  c = ' ' || c = '\t' || c = '\n' || c = '\r' ||
  c = Char.ofNat 0x0b || c = Char.ofNat 0x0c ||
  c = Char.ofNat 0xa0 || c = Char.ofNat 0xfeff

/-- JS `s.trim()`: strip the whitespace class from both ends. -/
def strTrim (s : String) : String :=
  String.mk (((s.toList.dropWhile isJsSpace).reverse.dropWhile isJsSpace).reverse)

/-- JS `s.split(sep)` on character lists (always returns at least one piece). -/
def splitCharL (sep : Char) : List Char → List (List Char)
  | [] => [[]]
  | c :: r =>
    if c = sep then [] :: splitCharL sep r
    else
      match splitCharL sep r with
      | [] => [[c]]
      | t :: ts => (c :: t) :: ts

/-- Inverse of `splitCharL`: interleave the separator back. -/
def unsplitCharL (sep : Char) : List (List Char) → List Char
  | [] => []
  | [t] => t
  | t :: ts => t ++ sep :: unsplitCharL sep ts

/-- Numeric value of a digit string (how `Number` reads a plain decimal). -/
def natOfDigits (l : List Char) : Nat :=
  l.foldl (fun n c => n * 10 + (c.toNat - 48)) 0

/-! ## IP-address validation (Node's `net.isIPv4` / `net.isIPv6` / `net.isIP`) -/

/-- One dotted-quad octet: 1–3 digits, value ≤ 255, no leading zero. -/
def isOctetL (t : List Char) : Bool :=
  decide (1 ≤ t.length ∧ t.length ≤ 3) && t.all isDigitChar &&
    (decide (t.length = 1) || decide (t.head? ≠ some '0')) &&
    decide (natOfDigits t ≤ 255)

/-- Node `net.isIPv4` on a character list. -/
def isIPv4L (l : List Char) : Bool :=
  match splitCharL '.' l with
  | [a, b, c, d] => isOctetL a && isOctetL b && isOctetL c && isOctetL d
  | _ => false

/-- Node `net.isIPv4`. -/
def isIPv4String (s : String) : Bool := isIPv4L s.toList

/-- Split a character list at the first occurrence of `::`. -/
def splitFirstDC : List Char → Option (List Char × List Char)
  | [] => none
  | ':' :: ':' :: rest => some ([], rest)
  | c :: rest => (splitFirstDC rest).map (fun p => (c :: p.1, p.2))

/-- An IPv6 hextet: 1–4 hex digits. -/
def isHexGroupL (t : List Char) : Bool :=
  decide (1 ≤ t.length ∧ t.length ≤ 4) && t.all isHexDigitChar

/-- Count the 16-bit groups of a colon-separated tail, where the final
piece may alternatively be an embedded dotted-quad IPv4 (worth two
groups). Returns `none` when some piece is invalid. -/
def tailGroupsWeighted : List (List Char) → Option Nat
  | [] => some 0
  | [t] => if isHexGroupL t then some 1 else if isIPv4L t then some 2 else none
  | t :: rest => if isHexGroupL t then (tailGroupsWeighted rest).map (· + 1) else none

/-- Count groups of the part before a `::` (all must be plain hextets). -/
def headGroups : List (List Char) → Option Nat
  | [] => some 0
  | t :: rest => if isHexGroupL t then (headGroups rest).map (· + 1) else none

/-- Node `net.isIPv6` on a character list: either eight groups with no
`::`, or a single `::` with at most seven groups in total. -/
def isIPv6L (l : List Char) : Bool :=
  match splitFirstDC l with
  | none =>
    match tailGroupsWeighted (splitCharL ':' l) with
    | some n => decide (n = 8)
    | none => false
  | some (a, b) =>
    if isInfixOfL [':', ':'] b then false
    else
      let ga := if a.isEmpty then some 0 else headGroups (splitCharL ':' a)
      let gb := if b.isEmpty then some 0 else tailGroupsWeighted (splitCharL ':' b)
      match ga, gb with
      | some x, some y => decide (x + y ≤ 7)
      | _, _ => false

/-- Node `net.isIPv6`. -/
def isIPv6String (s : String) : Bool := isIPv6L s.toList

/-- Node `net.isIP` used as a boolean (the source only tests truthiness). -/
def isIPString (s : String) : Bool := isIPv4String s || isIPv6String s

/-! ## `isPrivateIp` (source lines 93–114) -/

/-- `isPrivateIp` from the source: IPv4 private/loopback/link-local/
0.0.0.0-block ranges by leading octets; IPv6 `::1`, `fc`/`fd` prefixes
(unique-local) and `fe8`–`feb` prefixes (link-local). Non-IP strings are
not private. `a`/`b` are the first two dotted octets (`split('.').map(Number)`). -/
def isPrivateIp (ip : String) : Bool :=
  if !isIPString ip then false
  else if isIPv4String ip then
    let parts := splitCharL '.' ip.toList
    let a := natOfDigits (parts.headD [])
    let b := natOfDigits ((parts.drop 1).headD [])
    if a = 10 then true
    else if a = 127 then true
    else if a = 169 ∧ b = 254 then true
    else if a = 172 ∧ 16 ≤ b ∧ b ≤ 31 then true
    else if a = 192 ∧ b = 168 then true
    else if a = 0 then true
    else false
  else if ip = "::1" then true
  else
    let lower := strToLower ip
    if strStartsWith lower "fc" || strStartsWith lower "fd" then true
    else if strStartsWith lower "fe8" || strStartsWith lower "fe9" ||
        strStartsWith lower "fea" || strStartsWith lower "feb" then true
    else false

/-! ## Constants and keyword lists (source lines 61–83) -/

def TIMEOUT_MS : Nat := 4500

def MAX_REDIRECTS : Nat := 5

def MAX_BYTES : Nat := 200000

def PARKING_PATTERNS : List String :=
  ["domain for sale", "buy this domain", "this domain is for sale",
   "sedo", "afternic", "parked", "parking"]

def CONTACT_HINTS : List String :=
  ["contact", "contacto", "kontakt", "contatti", "contato", "nous contacter"]

def LEGAL_HINTS : List String :=
  ["privacy", "terms", "legal", "impressum",
   "aviso legal", "politica de privacidad", "términos", "condiciones"]

/-! ## Data model and oracle environments -/

/-- Result of the WHATWG `new URL(s)` platform parser: the components the
source reads (`protocol`, `username`, `password`, `hostname`) and the
serialization `toString()` (`href`). -/
structure UrlParts where
  protocol : String
  username : String
  password : String
  hostname : String
  href : String
  deriving DecidableEq

/-- One HTTP response as delivered to the source by `node-fetch`:
status, the `location` and `content-type` headers (absent = `none`),
the body chunk stream (each chunk as its UTF-8 text), and the
wall-clock durations of the request and of reading the whole body. -/
structure HttpResponse where
  status : Nat
  location : Option String
  contentType : Option String
  chunks : List String
  fetchMs : Nat
  readMs : Nat
  deriving DecidableEq

/-- Network oracle for the fetcher: the response each URL produces, and
WHATWG relative-reference resolution `new URL(loc, base).toString()`. -/
structure FetchEnv where
  net : String → HttpResponse
  resolveLoc : String → String → String

/-- Ambient platform of one probe: URL parser, DNS resolvers (`none`
models a thrown lookup error, swallowed by the source), the fetch
oracle, the clock value when the probe starts, and
`new Date().toISOString()`. -/
structure Env where
  parseUrl : String → Option UrlParts
  resolve4 : String → Option (List String)
  resolve6 : String → Option (List String)
  fetch : FetchEnv
  t0 : Nat
  nowIso : String

/-- `FetchOutcome` (the record returned by `fetchWithLimits`). -/
structure FetchOutcome where
  status : Nat
  contentType : String
  bodyText : String
  bytesDownloaded : Nat
  responseTimeMs : Nat
  finalUrl : String
  deriving DecidableEq

/-- The signal flags from `extractSignalsFromHtml`. -/
structure Signals where
  has_title : Bool
  has_contact_like_links : Bool
  has_legal_like_links : Bool
  parking_hit : Bool
  deriving DecidableEq

/-- The final probe record returned by `checkWebEntityStatus`. The JS
`signals` object is a key/value list (empty on the not-found path). -/
structure ProbeResult where
  exists_ : Bool
  reachable : Bool
  http_status : Option Nat
  final_url : Option String
  response_time_ms : Option Nat
  ssl_valid : Option Bool
  suspected_parked_domain : Option Bool
  signals : List (String × Bool)
  confidence_score : ℚ
  checked_at : String
  deriving DecidableEq

/-- Inputs of `computeConfidence`. -/
structure ConfidenceInputs where
  reachable : Bool
  httpStatus : Nat
  sslValid : Bool
  contentTypeHtml : Bool
  contentLengthOk : Bool
  hasTitle : Bool
  hasContactOrLegal : Bool
  suspectedParked : Bool
  deriving DecidableEq

/-! ## URL normalization (source lines 116–149) -/

/-- The test `/^https?:\/\//i.test(s)`. -/
def startsWithHttpScheme (s : String) : Bool :=
  strStartsWith (strToLower s) "http://" || strStartsWith (strToLower s) "https://"

/-- `normalizeUrl` from the source: trim, default the `https://` scheme,
parse, then reject non-http(s) schemes, embedded credentials,
`localhost` hosts, and literal private IPs. -/
def normalizeUrl (env : Env) (input : String) : Except String UrlParts :=
  let s := strTrim input
  if s = "" then .error "url is required"
  else
    let s2 := if startsWithHttpScheme s then s else "https://" ++ s
    match env.parseUrl s2 with
    | none => .error "Invalid URL"
    | some u =>
      if ¬(u.protocol = "http:" ∨ u.protocol = "https:") then
        .error "Only http/https allowed"
      else if u.username ≠ "" ∨ u.password ≠ "" then
        .error "Credentials in URL not allowed"
      else
        let host := strToLower u.hostname
        if host = "localhost" ∨ strEndsWith host ".localhost" = true then
          .error "Localhost not allowed"
        else if isIPString host && isPrivateIp host then
          .error "Private IP not allowed"
        else .ok u

/-! ## DNS resolution (source lines 151–160) -/

/-- `resolveDns`: try A then AAAA records, swallowing a thrown error of
either lookup, and push both result arrays into one list. -/
def resolveDns (env : Env) (hostname : String) : List String :=
  ((env.resolve4 hostname).getD []) ++ ((env.resolve6 hostname).getD [])

/-! ## Signal extraction (source lines 162–177) -/

/-- JS `.` in a regex matches anything but a line terminator. -/
def isLineTerm (c : Char) : Bool :=
  c = '\n' || c = '\r' || c = Char.ofNat 0x2028 || c = Char.ofNat 0x2029

/-- The characters of `<title`. -/
def openTagL : List Char := ['<', 't', 'i', 't', 'l', 'e']

/-- The characters of `</title>`. -/
def closeTagL : List Char := ['<', '/', 't', 'i', 't', 'l', 'e', '>']

/-- After `<title`, consume `[^>]*` up to the closing `>` of the open tag. -/
def skipAttrs : List Char → Option (List Char)
  | [] => none
  | c :: cs => if c = '>' then some cs else skipAttrs cs

/-- Scan for `</title>` across characters `.` can match (no line
terminators), as the lazy `.*?<\/title>` does. -/
def findCloseTag : List Char → Bool
  | [] => false
  | c :: cs =>
    if isPrefixOfL closeTagL (c :: cs) then true
    else if isLineTerm c then false
    else findCloseTag cs

/-- Does `<title[^>]*>.*?<\/title>` match at this position? -/
def titleMatchAt (l : List Char) : Bool :=
  if isPrefixOfL openTagL l then
    match skipAttrs (l.drop 6) with
    | some rest => findCloseTag rest
    | none => false
  else false

/-- `/<title[^>]*>.*?<\/title>/.test(text)`: a match at some position. -/
def containsTitleMatch : List Char → Bool
  | [] => false
  | c :: cs => titleMatchAt (c :: cs) || containsTitleMatch cs

/-- `extractSignalsFromHtml` from the source: lowercase the body once,
then regex-test for a title element and substring-test the keyword lists. -/
def extractSignalsFromHtml (html : String) : Signals :=
  let lower := strToLower html
  { has_title := containsTitleMatch lower.toList
    has_contact_like_links := CONTACT_HINTS.any (fun h => strIncludes lower h)
    has_legal_like_links := LEGAL_HINTS.any (fun h => strIncludes lower h)
    parking_hit := PARKING_PATTERNS.any (fun p => strIncludes lower p) }

/-! ## Confidence scoring (source lines 89–91, 179–199) -/

/-- `clamp01`: `Math.max(0, Math.min(1, x))`. -/
def clamp01 (x : ℚ) : ℚ := max 0 (min 1 x)

/-- The additive accumulation of `computeConfidence` before clamping. -/
def confidenceRaw (i : ConfidenceInputs) : ℚ :=
  let score : ℚ := 0
  let score := if i.reachable then score + 35/100 else score
  let score := if 200 ≤ i.httpStatus ∧ i.httpStatus ≤ 399 then score + 15/100 else score
  let score := if i.sslValid then score + 10/100 else score
  let score := if i.contentTypeHtml then score + 10/100 else score
  let score := if i.contentLengthOk then score + 10/100 else score
  let score := if i.hasTitle then score + 10/100 else score
  let score := if i.hasContactOrLegal then score + 10/100 else score
  let score := if i.suspectedParked then score - 25/100 else score
  score

/-- `computeConfidence` from the source. -/
def computeConfidence (i : ConfidenceInputs) : ℚ :=
  clamp01 (confidenceRaw i)

/-! ## Bounded fetch (source lines 201–250) -/

/-- `res.status` in `[301, 302, 303, 307, 308]`. -/
def isRedirectStatus (s : Nat) : Bool :=
  s = 301 || s = 302 || s = 303 || s = 307 || s = 308

/-- JS truthiness of the `location` header: absent or empty is falsy. -/
def locTruthy : Option String → Option String
  | some l => if l = "" then none else some l
  | none => none

/-- The UTF-8 byte length of a chunk (`buf.length` for its decoded text). -/
def utf8Len (s : String) : Nat :=
  s.toList.foldl (fun n c => n + c.utf8Size) 0

/-- The streaming read loop: accumulate the byte count of every chunk
consumed; break as soon as the running count exceeds `MAX_BYTES`,
without appending the chunk that crossed the cap. -/
def readBodyAux : List String → Nat → String → Nat × String
  | [], bytes, text => (bytes, text)
  | c :: rest, bytes, text =>
    let b := bytes + utf8Len c
    if MAX_BYTES < b then (b, text)
    else readBodyAux rest b (text ++ c)

/-- The non-redirect tail of `fetchWithLimits` (source lines 229–249):
lowercase the `content-type` header, stream the body under the byte cap,
and build the outcome. `t` is the clock at the start of this hop
(the call's `start`); the returned clock is `Date.now()` at return. -/
def finishFetch (env : FetchEnv) (url : String) (t : Nat) : FetchOutcome × Nat :=
  let res := env.net url
  let contentType := strToLower ((res.contentType).getD "")
  let p := readBodyAux res.chunks 0 ""
  let t2 := t + res.fetchMs + res.readMs
  ({ status := res.status
     contentType := contentType
     bodyText := p.2
     bytesDownloaded := p.1
     responseTimeMs := t2 - t
     finalUrl := url }, t2)

/-- `fetchWithLimits(url, redirectsLeft)`: issue the request; on a
redirect-class status with a truthy `location` header and hops left,
resolve the location against the current URL and recurse with one fewer
hop; otherwise the current response becomes the final outcome. The
clock argument is the hop's entry time (`start` is per call). -/
def fetchWithLimits (env : FetchEnv) : String → Nat → Nat → FetchOutcome × Nat
  | url, 0, t => finishFetch env url t
  | url, Nat.succ m, t =>
    let res := env.net url
    match locTruthy res.location with
    | some loc =>
      if isRedirectStatus res.status then
        fetchWithLimits env (env.resolveLoc loc url) m (t + res.fetchMs)
      else finishFetch env url t
    | none => finishFetch env url t

/-! ## The probe (source lines 252–313) -/

/-- `checkWebEntityStatus`: normalize, resolve DNS, short-circuit on an
empty address set, fail closed on any private resolved address, then
fetch, extract signals, and score. -/
def checkWebEntityStatus (env : Env) (inputUrl : String) : Except String ProbeResult :=
  match normalizeUrl env inputUrl with
  | .error e => .error e
  | .ok u =>
    let ips := resolveDns env u.hostname
    if ips.length = 0 then
      .ok { exists_ := false
            reachable := false
            http_status := none
            final_url := none
            response_time_ms := none
            ssl_valid := none
            suspected_parked_domain := none
            signals := []
            confidence_score := 0
            checked_at := env.nowIso }
    else if ips.any isPrivateIp then .error "Host resolves to private IP"
    else
      let r := (fetchWithLimits env.fetch u.href MAX_REDIRECTS env.t0).1
      let contentTypeHtml := strIncludes r.contentType "text/html"
      let contentLengthOk := decide (5000 ≤ r.bytesDownloaded)
      let sig := extractSignalsFromHtml r.bodyText
      let suspectedParked :=
        sig.parking_hit || (!sig.has_title && decide (r.bytesDownloaded < 8000))
      let hasContactOrLegal := sig.has_contact_like_links || sig.has_legal_like_links
      let confidence := computeConfidence
        { reachable := true
          httpStatus := r.status
          sslValid := decide (u.protocol = "https:")
          contentTypeHtml := contentTypeHtml
          contentLengthOk := contentLengthOk
          hasTitle := sig.has_title
          hasContactOrLegal := hasContactOrLegal
          suspectedParked := suspectedParked }
      .ok { exists_ := true
            reachable := true
            http_status := some r.status
            final_url := some r.finalUrl
            response_time_ms := some r.responseTimeMs
            ssl_valid := some (decide (u.protocol = "https:"))
            suspected_parked_domain := some suspectedParked
            signals :=
              [("content_type_html", contentTypeHtml),
               ("content_length_ok", contentLengthOk),
               ("has_title", sig.has_title),
               ("has_contact_like_links", sig.has_contact_like_links),
               ("has_legal_like_links", sig.has_legal_like_links)]
            confidence_score := confidence
            checked_at := env.nowIso }

/-- The fetch outcome bound to `r` on the success path of
`checkWebEntityStatus` (same expression as in its body). -/
def probeOutcome (env : Env) (u : UrlParts) : FetchOutcome :=
  (fetchWithLimits env.fetch u.href MAX_REDIRECTS env.t0).1

/-! ## Spec-side definitions (written from the specification's words,
to be compared with the definitions translated from the source) -/

/-- The specification's scoring table: the plain sum of the fixed
weights (+0.35 reachable, +0.15 status in [200,399], +0.10 https,
+0.10 HTML content-type, +0.10 bytes ≥ 5000, +0.10 title present,
+0.10 contact-or-legal, −0.25 suspected parked). -/
def specScoreSum (i : ConfidenceInputs) : ℚ :=
  (if i.reachable then (35 : ℚ)/100 else 0) +
  (if 200 ≤ i.httpStatus ∧ i.httpStatus ≤ 399 then (15 : ℚ)/100 else 0) +
  (if i.sslValid then (10 : ℚ)/100 else 0) +
  (if i.contentTypeHtml then (10 : ℚ)/100 else 0) +
  (if i.contentLengthOk then (10 : ℚ)/100 else 0) +
  (if i.hasTitle then (10 : ℚ)/100 else 0) +
  (if i.hasContactOrLegal then (10 : ℚ)/100 else 0) -
  (if i.suspectedParked then (25 : ℚ)/100 else 0)

/-- The specification's derivation of `suspected_parked_domain`: true
when `parking_hit` is true, or when no title is present and the
downloaded byte count is below 8000. -/
def specSuspectedParked (sig : Signals) (bytes : Nat) : Bool :=
  sig.parking_hit || (!sig.has_title && decide (bytes < 8000))

/-- The specification's reading of the title signal, with the content
allowed to be empty: the text decomposes around a `<title ...>` open
tag (no `>` inside the attribute run) followed, across characters a
regex `.` can match, by `</title>`. -/
def titleSpecAny (l : List Char) : Prop :=
  ∃ pre attrs mid post,
    l = pre ++ openTagL ++ attrs ++ '>' :: (mid ++ closeTagL ++ post) ∧
    (∀ c ∈ attrs, c ≠ '>') ∧ (∀ c ∈ mid, isLineTerm c = false)

/-- The claim's reading of the title signal: same decomposition but the
element content must be non-empty. -/
def titleSpecNonempty (l : List Char) : Prop :=
  ∃ pre attrs mid post,
    l = pre ++ openTagL ++ attrs ++ '>' :: (mid ++ closeTagL ++ post) ∧
    (∀ c ∈ attrs, c ≠ '>') ∧ (∀ c ∈ mid, isLineTerm c = false) ∧ mid ≠ []

/-- Concatenation of a chunk list (the text accumulated when no chunk
is dropped). -/
def joinChunks : List String → String
  | [] => ""
  | c :: r => c ++ joinChunks r

/-! ## Concrete oracle instances used to evaluate the definitions -/

/-- A fetch oracle whose every URL answers 200 with an empty body. -/
def fetchEnvA : FetchEnv :=
  { net := fun _ =>
      { status := 200, location := none, contentType := some "text/html",
        chunks := [], fetchMs := 0, readMs := 0 }
    resolveLoc := fun l _ => l }

/-- Environment whose IPv4 resolver answers the same private address
twice (DNS answers may repeat records; the source does not de-duplicate). -/
def envC7 : Env :=
  { parseUrl := fun _ => none
    resolve4 := fun _ => some ["10.0.0.1", "10.0.0.1"]
    resolve6 := fun _ => some []
    fetch := fetchEnvA
    t0 := 0
    nowIso := "2026-10-11T00:00:00.000Z" }

/-- Fetch oracle for the timing counterexample: `u0` redirects to `u1`
after 100 ms; `u1` answers 200 after 50 ms. -/
def envC9 : FetchEnv :=
  { net := fun u =>
      if u = "u0" then
        { status := 301, location := some "u1", contentType := none,
          chunks := [], fetchMs := 100, readMs := 0 }
      else
        { status := 200, location := none, contentType := some "text/html",
          chunks := ["ok"], fetchMs := 50, readMs := 0 }
    resolveLoc := fun l _ => l }

/-- A single body chunk of 200001 `a` bytes (one byte past the cap). -/
def bigA : String := String.mk (List.replicate 200001 'a')

/-- Fetch oracle delivering the whole oversized body as one chunk. -/
def envC2 : FetchEnv :=
  { net := fun _ =>
      { status := 200, location := none, contentType := some "text/html",
        chunks := [bigA], fetchMs := 1, readMs := 1 }
    resolveLoc := fun l _ => l }

/-- Parse result of `https://example.com`. -/
def urlExample : UrlParts :=
  { protocol := "https:", username := "", password := "",
    hostname := "example.com", href := "https://example.com/" }

/-- Environment whose host resolves to a private IPv4 address. -/
def envC1 : Env :=
  { parseUrl := fun s => if s = "https://example.com" then some urlExample else none
    resolve4 := fun _ => some ["10.0.0.1"]
    resolve6 := fun _ => some []
    fetch := fetchEnvA
    t0 := 0
    nowIso := "2026-10-11T00:00:00.000Z" }

/-- Fetch oracle answering every URL with three-byte chunks. -/
def envC2w : FetchEnv :=
  { net := fun _ =>
      { status := 200, location := none, contentType := some "text/html",
        chunks := ["abc"], fetchMs := 0, readMs := 0 }
    resolveLoc := fun l _ => l }

/-- The URLs of a six-hop redirect chain. -/
def usC3 : Nat → String
  | 0 => "u0"
  | 1 => "u1"
  | 2 => "u2"
  | 3 => "u3"
  | 4 => "u4"
  | _ => "u5"

/-- The `Location` targets along the chain. -/
def lsC3 : Nat → String := fun i => usC3 (i + 1)

/-- Fetch oracle for the chain: every hop is a 301 with a `Location`. -/
def envC3 : FetchEnv :=
  { net := fun u =>
      if u = "u0" then
        { status := 301, location := some "u1", contentType := none,
          chunks := [], fetchMs := 1, readMs := 0 }
      else if u = "u1" then
        { status := 301, location := some "u2", contentType := none,
          chunks := [], fetchMs := 1, readMs := 0 }
      else if u = "u2" then
        { status := 301, location := some "u3", contentType := none,
          chunks := [], fetchMs := 1, readMs := 0 }
      else if u = "u3" then
        { status := 301, location := some "u4", contentType := none,
          chunks := [], fetchMs := 1, readMs := 0 }
      else if u = "u4" then
        { status := 301, location := some "u5", contentType := none,
          chunks := [], fetchMs := 1, readMs := 0 }
      else
        { status := 302, location := some "u6", contentType := none,
          chunks := [], fetchMs := 1, readMs := 0 }
    resolveLoc := fun l _ => l }

/-- Fetch oracle for the success-path evaluation: an HTML page with a
title and a contact link. -/
def fetchEnvC4 : FetchEnv :=
  { net := fun _ =>
      { status := 200, location := none, contentType := some "text/html",
        chunks := ["<title>hi</title> contact"], fetchMs := 10, readMs := 5 }
    resolveLoc := fun l _ => l }

/-- Environment for the success-path evaluation. -/
def envC4 : Env :=
  { parseUrl := fun s => if s = "https://example.com" then some urlExample else none
    resolve4 := fun _ => some ["93.184.216.34"]
    resolve6 := fun _ => some []
    fetch := fetchEnvC4
    t0 := 0
    nowIso := "2026-10-11T00:00:00.000Z" }

/-- The probe record produced on the success path of `envC4`. -/
def resC4 : ProbeResult :=
  { exists_ := true
    reachable := true
    http_status := some 200
    final_url := some "https://example.com/"
    response_time_ms := some 15
    ssl_valid := some true
    suspected_parked_domain := some false
    signals :=
      [("content_type_html", true), ("content_length_ok", false),
       ("has_title", true), ("has_contact_like_links", true),
       ("has_legal_like_links", false)]
    confidence_score := computeConfidence
      { reachable := true, httpStatus := 200, sslValid := true,
        contentTypeHtml := true, contentLengthOk := false, hasTitle := true,
        hasContactOrLegal := true, suspectedParked := false }
    checked_at := "2026-10-11T00:00:00.000Z" }

/-- Parse result of `https://nohost.example`. -/
def urlC6 : UrlParts :=
  { protocol := "https:", username := "", password := "",
    hostname := "nohost.example", href := "https://nohost.example/" }

/-- Environment whose host has zero DNS records. -/
def envC6 : Env :=
  { parseUrl := fun s => if s = "https://nohost.example" then some urlC6 else none
    resolve4 := fun _ => some []
    resolve6 := fun _ => some []
    fetch := fetchEnvA
    t0 := 0
    nowIso := "2026-10-11T00:00:00.000Z" }

/-- Environment resolving to one public IPv4 and one public IPv6 address. -/
def envC7w : Env :=
  { parseUrl := fun _ => none
    resolve4 := fun _ => some ["1.2.3.4"]
    resolve6 := fun _ => some ["2606:2800::1"]
    fetch := fetchEnvA
    t0 := 0
    nowIso := "2026-10-11T00:00:00.000Z" }

/-- Resolver answering the IPv6 address on the A lookup. -/
def r4w : String → Option (List String) := fun _ => some ["2606:2800::1"]

/-- Resolver answering the IPv4 address on the AAAA lookup. -/
def r6w : String → Option (List String) := fun _ => some ["1.2.3.4"]

/-- Parse result of `https://[::ffff:127.0.0.1]`. -/
def uC10 : UrlParts :=
  { protocol := "https:", username := "", password := "",
    hostname := "::ffff:127.0.0.1", href := "https://[::ffff:127.0.0.1]/" }

/-- Environment whose host resolves to the IPv4-mapped loopback. -/
def envC10 : Env :=
  { parseUrl := fun s => if s = "https://[::ffff:127.0.0.1]" then some uC10 else none
    resolve4 := fun _ => some []
    resolve6 := fun _ => some ["::ffff:127.0.0.1"]
    fetch := fetchEnvA
    t0 := 0
    nowIso := "2026-10-11T00:00:00.000Z" }

end WebEntity

namespace WebEntity

/-! ## Scorer lemmas -/

theorem ite_add_ite (c : Prop) [Decidable c] (s w : ℚ) :
    (if c then s + w else s) = s + (if c then w else 0) := by
  split <;> simp

theorem ite_sub_ite (c : Prop) [Decidable c] (s w : ℚ) :
    (if c then s - w else s) = s - (if c then w else 0) := by
  split <;> simp

theorem confidenceRaw_eq_specScoreSum (i : ConfidenceInputs) :
    confidenceRaw i = specScoreSum i := by
  unfold confidenceRaw specScoreSum
  simp only [ite_add_ite, ite_sub_ite]
  ring

theorem clamp01_mono {x y : ℚ} (h : x ≤ y) : clamp01 x ≤ clamp01 y :=
  max_le_max (le_refl 0) (min_le_min (le_refl 1) h)

theorem clamp01_nonneg (x : ℚ) : 0 ≤ clamp01 x := le_max_left 0 _

theorem clamp01_le_one (x : ℚ) : clamp01 x ≤ 1 :=
  max_le (by norm_num) (min_le_left 1 x)

theorem compute_le_of_raw_add (i j : ConfidenceInputs) (w : ℚ) (hw : 0 ≤ w)
    (h : confidenceRaw j = confidenceRaw i + w) :
    computeConfidence i ≤ computeConfidence j := by
  unfold computeConfidence
  rw [h]
  exact clamp01_mono (le_add_of_nonneg_right hw)

/-- Claim C5: for every assignment of the scorer's inputs, flipping any
single positive boolean signal (reachable, https, HTML content-type,
length-ok, title, contact-or-legal) from false to true, all other
inputs held fixed, never decreases the score; and the score always
lies in [0,1]. -/
theorem c5_monotone_clamped (i : ConfidenceInputs) :
    computeConfidence { i with reachable := false } ≤
      computeConfidence { i with reachable := true } ∧
    computeConfidence { i with sslValid := false } ≤
      computeConfidence { i with sslValid := true } ∧
    computeConfidence { i with contentTypeHtml := false } ≤
      computeConfidence { i with contentTypeHtml := true } ∧
    computeConfidence { i with contentLengthOk := false } ≤
      computeConfidence { i with contentLengthOk := true } ∧
    computeConfidence { i with hasTitle := false } ≤
      computeConfidence { i with hasTitle := true } ∧
    computeConfidence { i with hasContactOrLegal := false } ≤
      computeConfidence { i with hasContactOrLegal := true } ∧
    0 ≤ computeConfidence i ∧ computeConfidence i ≤ 1 := by
  obtain ⟨re, st, ss, ct, cl, ht, hc, sp⟩ := i
  refine ⟨?_, ?_, ?_, ?_, ?_, ?_, clamp01_nonneg _, clamp01_le_one _⟩
  · exact compute_le_of_raw_add _ _ ((35 : ℚ)/100) (by norm_num)
      (by simp [confidenceRaw_eq_specScoreSum, specScoreSum]; ring)
  · exact compute_le_of_raw_add _ _ ((10 : ℚ)/100) (by norm_num)
      (by simp [confidenceRaw_eq_specScoreSum, specScoreSum]; ring)
  · exact compute_le_of_raw_add _ _ ((10 : ℚ)/100) (by norm_num)
      (by simp [confidenceRaw_eq_specScoreSum, specScoreSum]; ring)
  · exact compute_le_of_raw_add _ _ ((10 : ℚ)/100) (by norm_num)
      (by simp [confidenceRaw_eq_specScoreSum, specScoreSum]; ring)
  · exact compute_le_of_raw_add _ _ ((10 : ℚ)/100) (by norm_num)
      (by simp [confidenceRaw_eq_specScoreSum, specScoreSum]; ring)
  · exact compute_le_of_raw_add _ _ ((10 : ℚ)/100) (by norm_num)
      (by simp [confidenceRaw_eq_specScoreSum, specScoreSum]; ring)

/-- Claim C4: the confidence score equals the clamp to [0,1] of the sum
of the fixed weights of the specification's table, and on the fetched
path of the probe `suspected_parked_domain` is exactly
`parking_hit OR (no title AND bytes < 8000)` and the stored
`confidence_score` is the clamped weight sum of the derived inputs. -/
theorem c4_confidence_formula (i : ConfidenceInputs) (env : Env) (input : String)
    (u : UrlParts) (r : ProbeResult)
    (hn : normalizeUrl env input = Except.ok u)
    (hr : checkWebEntityStatus env input = Except.ok r)
    (hex : r.exists_ = true) :
    computeConfidence i = clamp01 (specScoreSum i) ∧
    r.suspected_parked_domain =
      some (specSuspectedParked
        (extractSignalsFromHtml (probeOutcome env u).bodyText)
        (probeOutcome env u).bytesDownloaded) ∧
    r.confidence_score = clamp01 (specScoreSum
      { reachable := true
        httpStatus := (probeOutcome env u).status
        sslValid := decide (u.protocol = "https:")
        contentTypeHtml := strIncludes (probeOutcome env u).contentType "text/html"
        contentLengthOk := decide (5000 ≤ (probeOutcome env u).bytesDownloaded)
        hasTitle := (extractSignalsFromHtml (probeOutcome env u).bodyText).has_title
        hasContactOrLegal :=
          (extractSignalsFromHtml (probeOutcome env u).bodyText).has_contact_like_links ||
          (extractSignalsFromHtml (probeOutcome env u).bodyText).has_legal_like_links
        suspectedParked := specSuspectedParked
          (extractSignalsFromHtml (probeOutcome env u).bodyText)
          (probeOutcome env u).bytesDownloaded }) := by
  refine ⟨by rw [computeConfidence, confidenceRaw_eq_specScoreSum], ?_⟩
  unfold checkWebEntityStatus at hr
  rw [hn] at hr
  dsimp only at hr
  split at hr
  · injection hr with h
    subst h
    simp at hex
  · split at hr
    · exact absurd hr (by simp)
    · injection hr with h
      subst h
      refine ⟨rfl, ?_⟩
      simp only [probeOutcome, computeConfidence, confidenceRaw_eq_specScoreSum,
        specSuspectedParked]

/-! ## Control-flow lemmas for the probe -/

theorem normalize_error_ne_ssrf (env2 : Env) (s e : String)
    (h : normalizeUrl env2 s = Except.error e) :
    e ≠ "Host resolves to private IP" := by
  unfold normalizeUrl at h
  dsimp only at h
  split at h
  · injection h with h'
    subst h'
    decide
  · split at h
    · injection h with h'
      subst h'
      decide
    · split at h
      · injection h with h'
        subst h'
        decide
      · split at h
        · injection h with h'
          subst h'
          decide
        · split at h
          · injection h with h'
            subst h'
            decide
          · split at h
            · injection h with h'
              subst h'
              decide
            · exact absurd h (by simp)

/-- Claim C1: when the hostname's resolved address set contains a
private/loopback/link-local/unspecified address (the source's
`isPrivateIp` predicate), the probe fails with the SSRF-blocked error,
the result is the same for every fetch oracle (no fetch is attempted),
and that error is distinct from every error normalization can raise. -/
theorem c1_ssrf_blocked_after_dns (env : Env) (input : String) (u : UrlParts)
    (hn : normalizeUrl env input = Except.ok u)
    (hpriv : ∃ ip ∈ resolveDns env u.hostname, isPrivateIp ip = true) :
    checkWebEntityStatus env input = Except.error "Host resolves to private IP" ∧
    (∀ f : FetchEnv, checkWebEntityStatus { env with fetch := f } input =
      Except.error "Host resolves to private IP") ∧
    (∀ (env2 : Env) (s e : String), normalizeUrl env2 s = Except.error e →
      e ≠ "Host resolves to private IP") := by
  obtain ⟨ip, hip, hp⟩ := hpriv
  have main : ∀ f : FetchEnv, checkWebEntityStatus { env with fetch := f } input =
      Except.error "Host resolves to private IP" := by
    intro f
    have hn' : normalizeUrl { env with fetch := f } input = Except.ok u := hn
    unfold checkWebEntityStatus
    rw [hn']
    dsimp only
    have hmem : ip ∈ resolveDns { env with fetch := f } u.hostname := hip
    rw [if_neg, if_pos]
    · exact List.any_eq_true.mpr ⟨ip, hmem, hp⟩
    · exact fun h => (List.ne_nil_of_mem hmem) (List.length_eq_zero.mp h)
  exact ⟨main env.fetch, main, normalize_error_ne_ssrf⟩

/-- Claim C6: a hostname with zero resolved addresses yields, with no
error and independently of the fetch oracle, the fully-formed
not-found record: existence and reachability false, score 0, and every
per-fetch field null. -/
theorem c6_not_found_result (env : Env) (input : String) (u : UrlParts)
    (hn : normalizeUrl env input = Except.ok u)
    (hips : resolveDns env u.hostname = []) :
    checkWebEntityStatus env input = Except.ok
      { exists_ := false, reachable := false, http_status := none,
        final_url := none, response_time_ms := none, ssl_valid := none,
        suspected_parked_domain := none, signals := [],
        confidence_score := 0, checked_at := env.nowIso } ∧
    (∀ f : FetchEnv, checkWebEntityStatus { env with fetch := f } input =
      Except.ok
        { exists_ := false, reachable := false, http_status := none,
          final_url := none, response_time_ms := none, ssl_valid := none,
          suspected_parked_domain := none, signals := [],
          confidence_score := 0, checked_at := env.nowIso }) := by
  have main : ∀ f : FetchEnv, checkWebEntityStatus { env with fetch := f } input =
      Except.ok
        { exists_ := false, reachable := false, http_status := none,
          final_url := none, response_time_ms := none, ssl_valid := none,
          suspected_parked_domain := none, signals := [],
          confidence_score := 0, checked_at := env.nowIso } := by
    intro f
    have hn' : normalizeUrl { env with fetch := f } input = Except.ok u := hn
    have hips' : resolveDns { env with fetch := f } u.hostname = [] := hips
    unfold checkWebEntityStatus
    rw [hn']
    dsimp only
    rw [hips']
    rfl
  exact ⟨main env.fetch, main⟩

/-! ## DNS resolution lemmas -/

theorem perm_any_eq {l1 l2 : List String} (hp : List.Perm l1 l2) (p : String → Bool) :
    l1.any p = l2.any p := by
  cases h1 : l1.any p <;> cases h2 : l2.any p <;> try rfl
  · obtain ⟨x, hx, hpx⟩ := List.any_eq_true.mp h2
    have : l1.any p = true := List.any_eq_true.mpr ⟨x, hp.mem_iff.mpr hx, hpx⟩
    rw [h1] at this
    exact absurd this (by simp)
  · obtain ⟨x, hx, hpx⟩ := List.any_eq_true.mp h1
    have : l2.any p = true := List.any_eq_true.mpr ⟨x, hp.mem_iff.mp hx, hpx⟩
    rw [h2] at this
    exact absurd this (by simp)

/-- Claim C7 (counterexample): the resolver's returned list is not
de-duplicated — duplicate A records survive. -/
theorem c7_counterexample :
    resolveDns envC7 "host.example" = ["10.0.0.1", "10.0.0.1"] ∧
    ¬ (resolveDns envC7 "host.example").Nodup := by
  refine ⟨rfl, ?_⟩
  rw [show resolveDns envC7 "host.example" = ["10.0.0.1", "10.0.0.1"] from rfl]
  decide

/-- Claim C7 (amended): IPv4 and IPv6 lookups are attempted
independently and a thrown failure of either is swallowed (the other
family's records are still returned); the returned list is the
concatenation of both families without de-duplication; and the probe's
behaviour is invariant under permutation of the resolved address list. -/
theorem c7_amended (env : Env) (r4 r6 : String → Option (List String)) (input : String)
    (hperm : ∀ h : String,
      List.Perm (resolveDns { env with resolve4 := r4, resolve6 := r6 } h)
        (resolveDns env h)) :
    (∀ (e2 : Env) (hst : String), e2.resolve4 hst = none →
      resolveDns e2 hst = (e2.resolve6 hst).getD []) ∧
    (∀ (e2 : Env) (hst : String), e2.resolve6 hst = none →
      resolveDns e2 hst = (e2.resolve4 hst).getD []) ∧
    checkWebEntityStatus { env with resolve4 := r4, resolve6 := r6 } input =
      checkWebEntityStatus env input := by
  refine ⟨?_, ?_, ?_⟩
  · intro e2 hst h
    unfold resolveDns
    rw [h]
    rfl
  · intro e2 hst h
    unfold resolveDns
    rw [h]
    simp
  · unfold checkWebEntityStatus
    have hnorm : normalizeUrl { env with resolve4 := r4, resolve6 := r6 } input =
        normalizeUrl env input := rfl
    rw [hnorm]
    cases hcase : normalizeUrl env input with
    | error e => rfl
    | ok u =>
      dsimp only
      have hp := hperm u.hostname
      have hlen : (resolveDns { env with resolve4 := r4, resolve6 := r6 } u.hostname).length =
          (resolveDns env u.hostname).length := hp.length_eq
      have hany : (resolveDns { env with resolve4 := r4, resolve6 := r6 } u.hostname).any
            isPrivateIp = (resolveDns env u.hostname).any isPrivateIp :=
        perm_any_eq hp isPrivateIp
      rw [hlen, hany]

/-! ## Fetcher lemmas -/

theorem fetch_finishes (env : FetchEnv) :
    ∀ (n : Nat) (url : String) (t : Nat),
      ∃ u2 t2, fetchWithLimits env url n t = finishFetch env u2 t2 := by
  intro n
  induction n with
  | zero => exact fun url t => ⟨url, t, rfl⟩
  | succ m ih =>
    intro url t
    have hstep : fetchWithLimits env url (m + 1) t =
        match locTruthy (env.net url).location with
        | some loc =>
          if isRedirectStatus (env.net url).status = true then
            fetchWithLimits env (env.resolveLoc loc url) m (t + (env.net url).fetchMs)
          else finishFetch env url t
        | none => finishFetch env url t := rfl
    rw [hstep]
    cases hl : locTruthy (env.net url).location with
    | none => exact ⟨url, t, rfl⟩
    | some loc =>
      cases hs : isRedirectStatus (env.net url).status with
      | false => exact ⟨url, t, by simp⟩
      | true =>
        obtain ⟨u2, t2, h⟩ := ih (env.resolveLoc loc url) (t + (env.net url).fetchMs)
        exact ⟨u2, t2, by simp [h]⟩

theorem fetch_hop (env : FetchEnv) (url : String) (m t : Nat) (loc : String)
    (hs : isRedirectStatus (env.net url).status = true)
    (hl : locTruthy (env.net url).location = some loc) :
    fetchWithLimits env url (m + 1) t =
      fetchWithLimits env (env.resolveLoc loc url) m (t + (env.net url).fetchMs) := by
  have hstep : fetchWithLimits env url (m + 1) t =
      match locTruthy (env.net url).location with
      | some loc =>
        if isRedirectStatus (env.net url).status = true then
          fetchWithLimits env (env.resolveLoc loc url) m (t + (env.net url).fetchMs)
        else finishFetch env url t
      | none => finishFetch env url t := rfl
  rw [hstep, hl]
  dsimp only
  rw [if_pos hs]

theorem fetch_noloc (env : FetchEnv) (url : String) (n t : Nat)
    (hl : locTruthy (env.net url).location = none) :
    fetchWithLimits env url n t = finishFetch env url t := by
  cases n with
  | zero => rfl
  | succ m =>
    have hstep : fetchWithLimits env url (m + 1) t =
        match locTruthy (env.net url).location with
        | some loc =>
          if isRedirectStatus (env.net url).status = true then
            fetchWithLimits env (env.resolveLoc loc url) m (t + (env.net url).fetchMs)
          else finishFetch env url t
        | none => finishFetch env url t := rfl
    rw [hstep, hl]

/-- Claim C3: a 6-hop redirect chain under the cap of 5 follows exactly
five redirects — each hop decrementing `redirectsLeft` by one and
advancing the clock by that hop's request time — and the sixth
(unfollowed) redirect response itself becomes the final outcome, its
status and URL surfacing in the returned record; a redirect-class
response with no truthy `Location` header likewise becomes the final
outcome. -/
theorem c3_redirect_cap (env : FetchEnv) (us ls : Nat → String) (t : Nat)
    (hchain : ∀ i, i < 5 →
      isRedirectStatus (env.net (us i)).status = true ∧
      locTruthy (env.net (us i)).location = some (ls i) ∧
      us (i + 1) = env.resolveLoc (ls i) (us i))
    (h6 : isRedirectStatus (env.net (us 5)).status = true) :
    fetchWithLimits env (us 0) 5 t =
      finishFetch env (us 5)
        (t + (env.net (us 0)).fetchMs + (env.net (us 1)).fetchMs +
          (env.net (us 2)).fetchMs + (env.net (us 3)).fetchMs +
          (env.net (us 4)).fetchMs) ∧
    ((fetchWithLimits env (us 0) 5 t).1).status = (env.net (us 5)).status ∧
    ((fetchWithLimits env (us 0) 5 t).1).finalUrl = us 5 ∧
    (∀ (url : String) (m t2 : Nat) (loc : String),
      isRedirectStatus (env.net url).status = true →
      locTruthy (env.net url).location = some loc →
      fetchWithLimits env url (m + 1) t2 =
        fetchWithLimits env (env.resolveLoc loc url) m (t2 + (env.net url).fetchMs)) ∧
    (∀ (url : String) (m t2 : Nat),
      locTruthy (env.net url).location = none →
      fetchWithLimits env url m t2 = finishFetch env url t2) := by
  obtain ⟨hs0, hl0, hu1⟩ := hchain 0 (by omega)
  obtain ⟨hs1, hl1, hu2⟩ := hchain 1 (by omega)
  obtain ⟨hs2, hl2, hu3⟩ := hchain 2 (by omega)
  obtain ⟨hs3, hl3, hu4⟩ := hchain 3 (by omega)
  obtain ⟨hs4, hl4, hu5⟩ := hchain 4 (by omega)
  have main : fetchWithLimits env (us 0) 5 t =
      finishFetch env (us 5)
        (t + (env.net (us 0)).fetchMs + (env.net (us 1)).fetchMs +
          (env.net (us 2)).fetchMs + (env.net (us 3)).fetchMs +
          (env.net (us 4)).fetchMs) := by
    rw [show (5 : Nat) = 4 + 1 from rfl, fetch_hop env (us 0) 4 t (ls 0) hs0 hl0, ← hu1]
    rw [show (4 : Nat) = 3 + 1 from rfl, fetch_hop env (us 1) 3 _ (ls 1) hs1 hl1, ← hu2]
    rw [show (3 : Nat) = 2 + 1 from rfl, fetch_hop env (us 2) 2 _ (ls 2) hs2 hl2, ← hu3]
    rw [show (2 : Nat) = 1 + 1 from rfl, fetch_hop env (us 3) 1 _ (ls 3) hs3 hl3, ← hu4]
    rw [show (1 : Nat) = 0 + 1 from rfl, fetch_hop env (us 4) 0 _ (ls 4) hs4 hl4, ← hu5]
    norm_num
    rfl
  refine ⟨main, ?_, ?_, fun url m t2 loc hs hl => fetch_hop env url m t2 loc hs hl,
    fun url m t2 hl => fetch_noloc env url m t2 hl⟩
  · rw [main]
    rfl
  · rw [main]
    rfl

/-! ## Byte-cap lemmas -/

theorem toList_append_eq (a b : String) : (a ++ b).toList = a.toList ++ b.toList := by
  cases a
  cases b
  rfl

theorem strAppend_empty (s : String) : s ++ "" = s := by
  cases s
  exact congrArg String.mk (List.append_nil _)

theorem strEmpty_append (s : String) : "" ++ s = s := by
  cases s
  rfl

theorem strAppend_assoc (a b c : String) : (a ++ b) ++ c = a ++ (b ++ c) := by
  cases a
  cases b
  cases c
  exact congrArg String.mk (List.append_assoc _ _ _)

theorem utf8Len_foldl_shift (l : List Char) (a : Nat) :
    l.foldl (fun n c => n + c.utf8Size) a = a + l.foldl (fun n c => n + c.utf8Size) 0 := by
  induction l generalizing a with
  | nil => simp
  | cons c cs ih =>
    simp only [List.foldl_cons]
    rw [ih (a + c.utf8Size), ih (0 + c.utf8Size)]
    omega

theorem utf8Len_append_eq (a b : String) :
    utf8Len (a ++ b) = utf8Len a + utf8Len b := by
  unfold utf8Len
  rw [toList_append_eq, List.foldl_append, utf8Len_foldl_shift]

theorem readBodyAux_bounds (C : Nat) :
    ∀ (chunks : List String) (bytes : Nat) (text : String),
      bytes ≤ MAX_BYTES → utf8Len text ≤ bytes →
      (∀ c ∈ chunks, utf8Len c ≤ C) →
      utf8Len (readBodyAux chunks bytes text).2 ≤ MAX_BYTES ∧
      (readBodyAux chunks bytes text).1 ≤ MAX_BYTES + C := by
  intro chunks
  induction chunks with
  | nil =>
    intro bytes text hb ht _
    exact ⟨le_trans ht hb, le_trans hb (Nat.le_add_right _ _)⟩
  | cons c rest ih =>
    intro bytes text hb ht hc
    unfold readBodyAux
    dsimp only
    by_cases hover : MAX_BYTES < bytes + utf8Len c
    · rw [if_pos hover]
      refine ⟨le_trans ht hb, ?_⟩
      have : utf8Len c ≤ C := hc c (by simp)
      omega
    · rw [if_neg hover]
      exact ih (bytes + utf8Len c) (text ++ c) (by omega)
        (by rw [utf8Len_append_eq]; omega)
        (fun x hx => hc x (by simp [hx]))

theorem readBodyAux_text_prefix :
    ∀ (chunks : List String) (bytes : Nat) (text : String),
      ∃ k, (readBodyAux chunks bytes text).2 = text ++ joinChunks (chunks.take k) := by
  intro chunks
  induction chunks with
  | nil =>
    intro bytes text
    exact ⟨0, (strAppend_empty text).symm⟩
  | cons c rest ih =>
    intro bytes text
    unfold readBodyAux
    dsimp only
    by_cases hover : MAX_BYTES < bytes + utf8Len c
    · rw [if_pos hover]
      exact ⟨0, (strAppend_empty text).symm⟩
    · rw [if_neg hover]
      obtain ⟨k, hk⟩ := ih (bytes + utf8Len c) (text ++ c)
      refine ⟨k + 1, ?_⟩
      rw [hk, List.take_succ_cons]
      exact strAppend_assoc text c (joinChunks (rest.take k))

theorem utf8Len_replicate_a (n : Nat) :
    utf8Len (String.mk (List.replicate n 'a')) = n := by
  unfold utf8Len
  show (List.replicate n 'a').foldl (fun n c => n + c.utf8Size) 0 = n
  induction n with
  | zero => rfl
  | succ m ih =>
    rw [List.replicate_succ, List.foldl_cons, utf8Len_foldl_shift, ih]
    have ha : 'a'.utf8Size = 1 := rfl
    rw [ha]
    omega

/-- Claim C2 (counterexample): a single chunk of 200001 bytes makes the
returned `bytesDownloaded` equal 200001, strictly above the 200000-byte
cap — the byte counter includes the chunk that crossed the cap. -/
theorem finishFetch_bytes (env : FetchEnv) (url : String) (t : Nat) :
    ((finishFetch env url t).1).bytesDownloaded =
      (readBodyAux (env.net url).chunks 0 "").1 := rfl

theorem c2_counterexample :
    ((fetchWithLimits envC2 "u0" 5 0).1).bytesDownloaded = 200001 ∧
    MAX_BYTES < ((fetchWithLimits envC2 "u0" 5 0).1).bytesDownloaded := by
  have hlen : utf8Len bigA = 200001 := utf8Len_replicate_a 200001
  have hfetch : fetchWithLimits envC2 "u0" 5 0 = finishFetch envC2 "u0" 0 := rfl
  have hread : readBodyAux [bigA] 0 "" = (200001, "") := by
    unfold readBodyAux
    rw [show (0 : Nat) + utf8Len bigA = 200001 by rw [hlen]]
    rw [if_pos (by norm_num [MAX_BYTES])]
  have hfin : ((finishFetch envC2 "u0" 0).1).bytesDownloaded = 200001 := by
    rw [finishFetch_bytes envC2 "u0" 0,
      show (envC2.net "u0").chunks = [bigA] from rfl, hread]
  constructor
  · rw [hfetch, hfin]
  · rw [hfetch, hfin]
    norm_num [MAX_BYTES]

/-- Claim C2 (amended): the accumulated body text never exceeds the
200000-byte cap and is exactly the concatenation of the chunks consumed
before the cap was crossed; `bytesDownloaded` counts every byte read,
including the chunk during which truncation occurred, so it can exceed
the cap by at most the size of one chunk (for chunks of at most `C`
bytes it is bounded by cap + `C`); truncation is not an error. -/
theorem c2_amended (env : FetchEnv) (url : String) (n t C : Nat)
    (hC : ∀ (u : String), ∀ c ∈ (env.net u).chunks, utf8Len c ≤ C) :
    utf8Len ((fetchWithLimits env url n t).1).bodyText ≤ MAX_BYTES ∧
    ((fetchWithLimits env url n t).1).bytesDownloaded ≤ MAX_BYTES + C ∧
    (∃ k, ((fetchWithLimits env url n t).1).bodyText =
      joinChunks (((env.net ((fetchWithLimits env url n t).1).finalUrl).chunks).take k)) := by
  obtain ⟨u2, t2, h⟩ := fetch_finishes env n url t
  rw [h]
  have hfin1 : ((finishFetch env u2 t2).1).bodyText = (readBodyAux (env.net u2).chunks 0 "").2 := rfl
  have hfin2 : ((finishFetch env u2 t2).1).bytesDownloaded =
      (readBodyAux (env.net u2).chunks 0 "").1 := rfl
  have hfin3 : ((finishFetch env u2 t2).1).finalUrl = u2 := rfl
  have hb := readBodyAux_bounds C (env.net u2).chunks 0 ""
    (by norm_num [MAX_BYTES]) (by rfl) (hC u2)
  obtain ⟨k, hk⟩ := readBodyAux_text_prefix (env.net u2).chunks 0 ""
  refine ⟨by rw [hfin1]; exact hb.1, by rw [hfin2]; exact hb.2, ⟨k, ?_⟩⟩
  rw [hfin1, hfin3, hk]
  exact strEmpty_append _

/-- Claim C9 (counterexample): on a 2-hop fetch taking 100 ms then
50 ms, the recorded `responseTimeMs` is 50 — the final hop only — while
the whole call consumed 150 ms of clock. -/
theorem c9_counterexample :
    ((fetchWithLimits envC9 "u0" 5 0).1).responseTimeMs = 50 ∧
    (fetchWithLimits envC9 "u0" 5 0).2 - 0 = 150 ∧
    ((fetchWithLimits envC9 "u0" 5 0).1).responseTimeMs ≠
      (fetchWithLimits envC9 "u0" 5 0).2 - 0 := by
  refine ⟨rfl, rfl, ?_⟩
  decide

/-! ## Title-regex lemmas -/

theorem isPrefixOfL_sound : ∀ (p l : List Char), isPrefixOfL p l = true → ∃ q, l = p ++ q := by
  intro p
  induction p with
  | nil => exact fun l _ => ⟨l, rfl⟩
  | cons a as ih =>
    intro l h
    cases l with
    | nil => simp [isPrefixOfL] at h
    | cons b bs =>
      unfold isPrefixOfL at h
      by_cases hab : a = b
      · rw [if_pos hab] at h
        obtain ⟨q, hq⟩ := ih bs h
        subst hab
        exact ⟨q, by rw [hq]; rfl⟩
      · rw [if_neg hab] at h
        exact absurd h (by simp)

theorem isPrefixOfL_complete : ∀ (p q : List Char), isPrefixOfL p (p ++ q) = true := by
  intro p q
  induction p with
  | nil => rfl
  | cons a as ih => simp [isPrefixOfL, ih]

theorem skipAttrs_sound : ∀ (xs r : List Char), skipAttrs xs = some r →
    ∃ attrs, xs = attrs ++ '>' :: r ∧ ∀ c ∈ attrs, c ≠ '>' := by
  intro xs
  induction xs with
  | nil => intro r h; exact absurd h (by simp [skipAttrs])
  | cons c cs ih =>
    intro r h
    unfold skipAttrs at h
    by_cases hc : c = '>'
    · rw [if_pos hc] at h
      injection h with h2
      subst h2
      subst hc
      exact ⟨[], rfl, by simp⟩
    · rw [if_neg hc] at h
      obtain ⟨attrs, hx, hall⟩ := ih r h
      refine ⟨c :: attrs, by rw [hx]; rfl, ?_⟩
      intro x hxm
      rcases List.mem_cons.mp hxm with h1 | h1
      · rw [h1]; exact hc
      · exact hall x h1

theorem skipAttrs_complete : ∀ (attrs r : List Char), (∀ c ∈ attrs, c ≠ '>') →
    skipAttrs (attrs ++ '>' :: r) = some r := by
  intro attrs
  induction attrs with
  | nil => intro r _; simp [skipAttrs]
  | cons a as ih =>
    intro r hall
    show skipAttrs (a :: (as ++ '>' :: r)) = some r
    unfold skipAttrs
    rw [if_neg (hall a (by simp))]
    exact ih r (fun c hc => hall c (by simp [hc]))

theorem findCloseTag_cons_eq (c : Char) (cs : List Char) :
    findCloseTag (c :: cs) =
      if isPrefixOfL closeTagL (c :: cs) = true then true
      else if isLineTerm c = true then false
      else findCloseTag cs := rfl

theorem findCloseTag_of_close (l : List Char) (h : isPrefixOfL closeTagL l = true) :
    findCloseTag l = true := by
  cases l with
  | nil => simp [closeTagL, isPrefixOfL] at h
  | cons c cs => rw [findCloseTag_cons_eq, if_pos h]

theorem findCloseTag_sound : ∀ (l : List Char), findCloseTag l = true →
    ∃ mid post, l = mid ++ closeTagL ++ post ∧ ∀ c ∈ mid, isLineTerm c = false := by
  intro l
  induction l with
  | nil => intro h; exact absurd h (by simp [findCloseTag])
  | cons c cs ih =>
    intro h
    rw [findCloseTag_cons_eq] at h
    by_cases hp : isPrefixOfL closeTagL (c :: cs) = true
    · obtain ⟨q, hq⟩ := isPrefixOfL_sound _ _ hp
      exact ⟨[], q, by rw [hq]; rfl, by simp⟩
    · rw [if_neg hp] at h
      by_cases ht : isLineTerm c = true
      · rw [if_pos ht] at h
        exact absurd h (by simp)
      · rw [if_neg ht] at h
        obtain ⟨mid, post, hx, hall⟩ := ih h
        refine ⟨c :: mid, post, by rw [hx]; rfl, ?_⟩
        intro x hxm
        rcases List.mem_cons.mp hxm with h1 | h1
        · rw [h1]; exact Bool.eq_false_iff.mpr ht
        · exact hall x h1

theorem findCloseTag_complete : ∀ (mid post : List Char),
    (∀ c ∈ mid, isLineTerm c = false) →
    findCloseTag (mid ++ closeTagL ++ post) = true := by
  intro mid
  induction mid with
  | nil =>
    intro post _
    show findCloseTag (closeTagL ++ post) = true
    exact findCloseTag_of_close _ (isPrefixOfL_complete closeTagL post)
  | cons m ms ih =>
    intro post hall
    show findCloseTag (m :: (ms ++ closeTagL ++ post)) = true
    rw [findCloseTag_cons_eq]
    by_cases hp : isPrefixOfL closeTagL (m :: (ms ++ closeTagL ++ post)) = true
    · rw [if_pos hp]
    · rw [if_neg hp, if_neg (by rw [hall m (by simp)]; simp)]
      exact ih post (fun c hc => hall c (by simp [hc]))

theorem titleMatchAt_sound (l : List Char) (h : titleMatchAt l = true) :
    ∃ attrs mid post, l = openTagL ++ attrs ++ '>' :: (mid ++ closeTagL ++ post) ∧
      (∀ c ∈ attrs, c ≠ '>') ∧ (∀ c ∈ mid, isLineTerm c = false) := by
  unfold titleMatchAt at h
  by_cases hp : isPrefixOfL openTagL l = true
  · rw [if_pos hp] at h
    obtain ⟨q, hq⟩ := isPrefixOfL_sound _ _ hp
    subst hq
    have hdrop : (openTagL ++ q).drop 6 = q := rfl
    rw [hdrop] at h
    cases hsk : skipAttrs q with
    | none => rw [hsk] at h; exact absurd h (by simp)
    | some rest =>
      rw [hsk] at h
      obtain ⟨attrs, hq2, hne⟩ := skipAttrs_sound q rest hsk
      obtain ⟨mid, post, hr, hmid⟩ := findCloseTag_sound rest h
      refine ⟨attrs, mid, post, ?_, hne, hmid⟩
      rw [hq2, hr]
      simp [List.append_assoc]
  · rw [if_neg hp] at h
    exact absurd h (by simp)

theorem titleMatchAt_complete (attrs mid post : List Char)
    (hattrs : ∀ c ∈ attrs, c ≠ '>') (hmid : ∀ c ∈ mid, isLineTerm c = false) :
    titleMatchAt (openTagL ++ attrs ++ '>' :: (mid ++ closeTagL ++ post)) = true := by
  have hshape : openTagL ++ attrs ++ '>' :: (mid ++ closeTagL ++ post) =
      openTagL ++ (attrs ++ '>' :: (mid ++ closeTagL ++ post)) := by
    simp [List.append_assoc]
  rw [hshape]
  unfold titleMatchAt
  rw [if_pos (isPrefixOfL_complete openTagL _)]
  have hdrop : (openTagL ++ (attrs ++ '>' :: (mid ++ closeTagL ++ post))).drop 6 =
      attrs ++ '>' :: (mid ++ closeTagL ++ post) := rfl
  rw [hdrop, skipAttrs_complete attrs _ hattrs]
  exact findCloseTag_complete mid post hmid

theorem containsTitleMatch_complete : ∀ (pre rest : List Char),
    titleMatchAt rest = true → containsTitleMatch (pre ++ rest) = true := by
  intro pre
  induction pre with
  | nil =>
    intro rest h
    cases rest with
    | nil => exact absurd h (by simp [titleMatchAt, openTagL, isPrefixOfL])
    | cons r rs => simp [containsTitleMatch, h]
  | cons p ps ih =>
    intro rest h
    show containsTitleMatch (p :: (ps ++ rest)) = true
    simp [containsTitleMatch, ih rest h]

theorem containsTitleMatch_sound : ∀ (l : List Char), containsTitleMatch l = true →
    ∃ pre rest, l = pre ++ rest ∧ titleMatchAt rest = true := by
  intro l
  induction l with
  | nil => intro h; exact absurd h (by simp [containsTitleMatch])
  | cons c cs ih =>
    intro h
    simp only [containsTitleMatch, Bool.or_eq_true] at h
    rcases h with h1 | h1
    · exact ⟨[], c :: cs, rfl, h1⟩
    · obtain ⟨pre, rest, hx, hm⟩ := ih h1
      exact ⟨c :: pre, rest, by rw [hx]; rfl, hm⟩

theorem containsTitle_iff (l : List Char) :
    containsTitleMatch l = true ↔ titleSpecAny l := by
  constructor
  · intro h
    obtain ⟨pre, rest, hx, hm⟩ := containsTitleMatch_sound l h
    obtain ⟨attrs, mid, post, hr, hattrs, hmid⟩ := titleMatchAt_sound rest hm
    refine ⟨pre, attrs, mid, post, ?_, hattrs, hmid⟩
    rw [hx, hr]
    simp [List.append_assoc]
  · rintro ⟨pre, attrs, mid, post, hx, hattrs, hmid⟩
    rw [hx]
    have hshape : pre ++ openTagL ++ attrs ++ '>' :: (mid ++ closeTagL ++ post) =
        pre ++ (openTagL ++ attrs ++ '>' :: (mid ++ closeTagL ++ post)) := by
      simp [List.append_assoc]
    rw [hshape]
    exact containsTitleMatch_complete pre _ (titleMatchAt_complete attrs mid post hattrs hmid)

/-- Claim C8 (counterexample): the body `<title></title>` contains no
non-empty title element, yet the extractor reports `has_title = true` —
the lazy `.*?` in the source's regex matches the empty content. -/
theorem c8_counterexample :
    (extractSignalsFromHtml "<title></title>").has_title = true ∧
    ¬ titleSpecNonempty (strToLower "<title></title>").toList := by
  constructor
  · decide
  · rintro ⟨pre, attrs, mid, post, hx, _, _, hne⟩
    have hlen := congrArg List.length hx
    have hl : (strToLower "<title></title>").toList.length = 15 := by decide
    rw [hl] at hlen
    simp [List.length_append, closeTagL, openTagL] at hlen
    have : 0 < mid.length := List.length_pos.mpr hne
    omega

/-- Claim C8 (amended): `has_title` is true exactly when the lowercased
body contains a `<title ...>` element — matched case-insensitively,
anywhere in the text — whose content may be empty (in particular
`<title></title>` yields `has_title = true`), with the content matched
only across non-line-terminator characters. -/
theorem c8_amended (html : String) :
    (extractSignalsFromHtml html).has_title = true ↔
      titleSpecAny (strToLower html).toList := by
  show containsTitleMatch (strToLower html).toList = true ↔ _
  exact containsTitle_iff _

/-! ## IP-classification lemmas -/

theorem splitCharL_ne_nil (sep : Char) : ∀ l, splitCharL sep l ≠ [] := by
  intro l
  cases l with
  | nil => simp [splitCharL]
  | cons c r =>
    unfold splitCharL
    by_cases h : c = sep
    · rw [if_pos h]; simp
    · rw [if_neg h]
      cases hs : splitCharL sep r with
      | nil => simp
      | cons t ts => simp

theorem unsplit_split (sep : Char) : ∀ l, unsplitCharL sep (splitCharL sep l) = l := by
  intro l
  induction l with
  | nil => rfl
  | cons c r ih =>
    unfold splitCharL
    by_cases h : c = sep
    · rw [if_pos h]
      cases hs : splitCharL sep r with
      | nil => exact absurd hs (splitCharL_ne_nil sep r)
      | cons t ts =>
        rw [hs] at ih
        rw [show unsplitCharL sep ([] :: t :: ts) =
          [] ++ sep :: unsplitCharL sep (t :: ts) from rfl]
        rw [List.nil_append, ih, h]
    · rw [if_neg h]
      cases hs : splitCharL sep r with
      | nil => exact absurd hs (splitCharL_ne_nil sep r)
      | cons t ts =>
        rw [hs] at ih
        cases ts with
        | nil =>
          have e : unsplitCharL sep [t] = t := rfl
          rw [e] at ih
          rw [show unsplitCharL sep [c :: t] = c :: t from rfl, ih]
        | cons t2 ts2 =>
          have e1 : unsplitCharL sep ((c :: t) :: t2 :: ts2) =
              (c :: t) ++ sep :: unsplitCharL sep (t2 :: ts2) := rfl
          have e2 : unsplitCharL sep (t :: t2 :: ts2) =
              t ++ sep :: unsplitCharL sep (t2 :: ts2) := rfl
          rw [e2] at ih
          rw [e1, List.cons_append, ih]

theorem isIPv4L_colon_head (r : List Char) : isIPv4L (':' :: r) = false := by
  unfold isIPv4L
  have hne : splitCharL '.' r ≠ [] := splitCharL_ne_nil '.' r
  unfold splitCharL
  rw [if_neg (by decide : ¬(':' = '.'))]
  cases hs : splitCharL '.' r with
  | nil => exact absurd hs hne
  | cons t ts =>
    have hoct : isOctetL (':' :: t) = false := by
      have hd : isDigitChar ':' = false := rfl
      simp [isOctetL, hd]
    cases ts with
    | nil => rfl
    | cons b ts2 =>
      cases ts2 with
      | nil => rfl
      | cons c2 ts3 =>
        cases ts3 with
        | nil => rfl
        | cons d2 ts4 =>
          cases ts4 with
          | cons e ts5 => rfl
          | nil => simp [hoct]

theorem isIPv4L_struct {l : List Char} (h : isIPv4L l = true) :
    ∃ a b c d, splitCharL '.' l = [a, b, c, d] ∧
      isOctetL a = true ∧ isOctetL b = true ∧ isOctetL c = true ∧ isOctetL d = true := by
  unfold isIPv4L at h
  split at h
  · rename_i a b c d heq
    simp only [Bool.and_eq_true] at h
    exact ⟨a, b, c, d, heq, h.1.1.1, h.1.1.2, h.1.2, h.2⟩
  · exact absurd h (by simp)

theorem isOctetL_parts {t : List Char} (h : isOctetL t = true) :
    t ≠ [] ∧ ∀ c ∈ t, isDigitChar c = true := by
  unfold isOctetL at h
  simp only [Bool.and_eq_true, decide_eq_true_eq, List.all_eq_true] at h
  obtain ⟨⟨⟨hlen, hall⟩, _⟩, _⟩ := h
  refine ⟨?_, hall⟩
  intro hnil
  rw [hnil] at hlen
  simp at hlen

theorem isIPv4L_decomp {l : List Char} (h : isIPv4L l = true) :
    ∃ a b c d, l = a ++ '.' :: (b ++ '.' :: (c ++ '.' :: d)) ∧
      isOctetL a = true ∧ isOctetL b = true ∧ isOctetL c = true ∧ isOctetL d = true := by
  obtain ⟨a, b, c, d, hs, ha, hb, hc, hd⟩ := isIPv4L_struct h
  have hu := unsplit_split '.' l
  rw [hs] at hu
  have e : unsplitCharL '.' [a, b, c, d] = a ++ '.' :: (b ++ '.' :: (c ++ '.' :: d)) := rfl
  rw [e] at hu
  exact ⟨a, b, c, d, hu.symm, ha, hb, hc, hd⟩

theorem isIPv4L_chars {l : List Char} (h : isIPv4L l = true) :
    ∀ c ∈ l, isDigitChar c = true ∨ c = '.' := by
  obtain ⟨a, b, c, d, heq, ha, hb, hc, hd⟩ := isIPv4L_decomp h
  intro x hx
  rw [heq] at hx
  rcases List.mem_append.mp hx with h1 | h1
  · exact Or.inl ((isOctetL_parts ha).2 x h1)
  · rcases List.mem_cons.mp h1 with h2 | h2
    · exact Or.inr h2
    · rcases List.mem_append.mp h2 with h3 | h3
      · exact Or.inl ((isOctetL_parts hb).2 x h3)
      · rcases List.mem_cons.mp h3 with h4 | h4
        · exact Or.inr h4
        · rcases List.mem_append.mp h4 with h5 | h5
          · exact Or.inl ((isOctetL_parts hc).2 x h5)
          · rcases List.mem_cons.mp h5 with h6 | h6
            · exact Or.inr h6
            · exact Or.inl ((isOctetL_parts hd).2 x h6)

theorem isIPv4L_last_digit {l : List Char} (h : isIPv4L l = true) :
    ∃ c, l.getLast? = some c ∧ isDigitChar c = true := by
  obtain ⟨a, b, c, d, heq, _, _, _, hd⟩ := isIPv4L_decomp h
  obtain ⟨hdne, hdall⟩ := isOctetL_parts hd
  refine ⟨d.getLast hdne, ?_, hdall _ (List.getLast_mem hdne)⟩
  rw [heq]
  have e1 : a ++ '.' :: (b ++ '.' :: (c ++ '.' :: d)) =
      (a ++ '.' :: (b ++ '.' :: (c ++ ['.']))) ++ d := by
    simp [List.append_assoc]
  rw [e1, List.getLast?_append_of_ne_nil _ hdne]
  exact List.getLast?_eq_getLast_of_ne_nil hdne

theorem isIPv4L_ne_nil {l : List Char} (h : isIPv4L l = true) : l ≠ [] := by
  intro hnil
  rw [hnil] at h
  exact absurd h (by decide)

theorem charLower_of_small {c : Char} (h : c.toNat < 65) : charLower c = c := by
  unfold charLower
  rw [if_neg]
  intro hc
  omega

theorem charLower_digit {c : Char} (h : isDigitChar c = true) : charLower c = c := by
  simp only [isDigitChar, decide_eq_true_eq] at h
  exact charLower_of_small (by omega)

theorem isPrefixOfL_head_ne {a b : Char} {as bs : List Char} (h : a ≠ b) :
    isPrefixOfL (a :: as) (b :: bs) = false := by
  unfold isPrefixOfL
  rw [if_neg h]

theorem string_mk_toList (s : String) : String.mk s.toList = s := by
  cases s
  rfl

/-- Claim C10: an IPv4-mapped IPv6 literal `::ffff:a.b.c.d` whose
embedded IPv4 address is private or loopback is classified as NOT
private by `isPrivateIp` (the IPv6 branch only knows `::1`, `fc`/`fd`
and `fe8`–`feb` textual prefixes); consequently such a host passes
normalization, and a hostname resolving to such an address passes the
post-resolution re-check and proceeds to the fetch. -/
theorem c10_mapped_ipv6_not_private (d : String) (env : Env) (input : String) (u : UrlParts)
    (hd4 : isIPv4String d = true)
    (hdpriv : isPrivateIp d = true)
    (hsch : startsWithHttpScheme (strTrim input) = true)
    (hparse : env.parseUrl (strTrim input) = some u)
    (hprot : u.protocol = "https:")
    (hcu : u.username = "") (hcp : u.password = "")
    (hh : u.hostname = "::ffff:" ++ d)
    (hips : resolveDns env u.hostname = ["::ffff:" ++ d]) :
    isPrivateIp ("::ffff:" ++ d) = false ∧
    normalizeUrl env input = Except.ok u ∧
    ∃ r, checkWebEntityStatus env input = Except.ok r ∧
      r.exists_ = true ∧ r.reachable = true ∧
      r.http_status = some (probeOutcome env u).status := by
  have hd4L : isIPv4L d.toList = true := hd4
  have hF1 : ("::ffff:" ++ d).toList =
      ':' :: ':' :: 'f' :: 'f' :: 'f' :: 'f' :: ':' :: d.toList := by
    rw [toList_append_eq]
    rfl
  have hv4 : isIPv4String ("::ffff:" ++ d) = false := by
    unfold isIPv4String
    rw [hF1]
    exact isIPv4L_colon_head _
  have hlow : strToLower ("::ffff:" ++ d) = "::ffff:" ++ d := by
    unfold strToLower
    have hdmap : d.toList.map charLower = d.toList := by
      rw [List.map_congr_left (g := id) (fun c hc => ?_)]
      · exact List.map_id _
      · rcases isIPv4L_chars hd4L c hc with hdig | hdot
        · exact charLower_digit hdig
        · rw [hdot]; rfl
    rw [hF1]
    simp only [List.map_cons, hdmap]
    rw [show charLower ':' = ':' from rfl, show charLower 'f' = 'f' from rfl, ← hF1]
    exact string_mk_toList _
  have hne1 : ("::ffff:" ++ d) ≠ "::1" := by
    intro he
    have hco := congrArg String.toList he
    rw [hF1, show ("::1" : String).toList = [':', ':', '1'] from rfl] at hco
    injection hco with e1 r1
    injection r1 with e2 r2
    injection r2 with e3 r3
    exact absurd e3 (by decide)
  have hstarts : ∀ (p : String) (p0 : Char) (ps : List Char),
      p.toList = p0 :: ps → p0 ≠ ':' →
      strStartsWith ("::ffff:" ++ d) p = false := by
    intro p p0 ps hp hne
    unfold strStartsWith
    rw [hp, hF1]
    exact isPrefixOfL_head_ne hne
  have hpriv_false : isPrivateIp ("::ffff:" ++ d) = false := by
    unfold isPrivateIp
    cases hv6 : isIPv6String ("::ffff:" ++ d) with
    | false =>
      have hip : isIPString ("::ffff:" ++ d) = false := by
        unfold isIPString
        rw [hv4, hv6]
        rfl
      rw [hip]
      rfl
    | true =>
      have hip : isIPString ("::ffff:" ++ d) = true := by
        unfold isIPString
        rw [hv4, hv6]
        rfl
      rw [hip]
      rw [if_neg (by simp)]
      rw [if_neg (by simp [hv4])]
      rw [if_neg hne1]
      dsimp only
      rw [hlow]
      rw [hstarts "fc" 'f' ['c'] rfl (by decide),
        hstarts "fd" 'f' ['d'] rfl (by decide),
        hstarts "fe8" 'f' ['e', '8'] rfl (by decide),
        hstarts "fe9" 'f' ['e', '9'] rfl (by decide),
        hstarts "fea" 'f' ['e', 'a'] rfl (by decide),
        hstarts "feb" 'f' ['e', 'b'] rfl (by decide)]
      rfl
  have hneloc : ("::ffff:" ++ d) ≠ "localhost" := by
    intro he
    have hco := congrArg String.toList he
    rw [hF1, show ("localhost" : String).toList =
      ['l', 'o', 'c', 'a', 'l', 'h', 'o', 's', 't'] from rfl] at hco
    injection hco with e1 _
    exact absurd e1 (by decide)
  have hend : strEndsWith ("::ffff:" ++ d) ".localhost" = false := by
    unfold strEndsWith
    rw [show (".localhost" : String).toList.reverse =
      ['t', 's', 'o', 'h', 'l', 'a', 'c', 'o', 'l', '.'] from rfl]
    rw [hF1]
    have hrev : (':' :: ':' :: 'f' :: 'f' :: 'f' :: 'f' :: ':' :: d.toList).reverse =
        d.toList.reverse ++ [':', 'f', 'f', 'f', 'f', ':', ':'] := by
      simp
    rw [hrev]
    obtain ⟨c0, hc0, hc0d⟩ := isIPv4L_last_digit hd4L
    have hhead : d.toList.reverse.head? = some c0 := by
      rw [List.head?_reverse]
      exact hc0
    cases hrevd : d.toList.reverse with
    | nil =>
      rw [hrevd] at hhead
      exact absurd hhead (by simp)
    | cons c0' tl =>
      rw [hrevd] at hhead
      have hc0e : c0' = c0 := by injection hhead
      subst hc0e
      rw [List.cons_append]
      refine isPrefixOfL_head_ne ?_
      intro he
      rw [← he] at hc0d
      exact absurd hc0d (by decide)
  have hnorm : normalizeUrl env input = Except.ok u := by
    unfold normalizeUrl
    dsimp only
    have hs_ne : ¬(strTrim input = "") := by
      intro he
      rw [he] at hsch
      exact absurd hsch (by decide)
    rw [if_neg hs_ne, if_pos hsch, hparse]
    dsimp only
    rw [if_neg (by simp [hprot])]
    rw [if_neg (by simp [hcu, hcp])]
    rw [hh, hlow]
    rw [if_neg ?hloc, if_neg ?hguard]
    case hloc =>
      rintro (h1 | h1)
      · exact hneloc h1
      · rw [hend] at h1
        exact absurd h1 (by simp)
    case hguard =>
      rw [hpriv_false]
      simp
  refine ⟨hpriv_false, hnorm, ?_⟩
  unfold checkWebEntityStatus
  rw [hnorm]
  dsimp only
  rw [hips]
  rw [if_neg (by simp)]
  rw [if_neg (by simp [hpriv_false])]
  exact ⟨_, rfl, rfl, rfl, rfl⟩

/-- Claim C9 (amended): `responseTimeMs` measures the elapsed time of
the final hop only — the request plus body-read duration of the
response that became the outcome — not the accumulated time of earlier
redirect hops. -/
theorem c9_amended (env : FetchEnv) (url : String) (n t : Nat) :
    ((fetchWithLimits env url n t).1).responseTimeMs =
      (env.net ((fetchWithLimits env url n t).1).finalUrl).fetchMs +
      (env.net ((fetchWithLimits env url n t).1).finalUrl).readMs := by
  obtain ⟨u2, t2, h⟩ := fetch_finishes env n url t
  rw [h]
  unfold finishFetch
  dsimp only
  omega

/-! ## Witnesses: each claim theorem evaluated at a concrete input -/

theorem c1_witness :
    normalizeUrl envC1 "example.com" = Except.ok urlExample ∧
    (∃ ip ∈ resolveDns envC1 urlExample.hostname, isPrivateIp ip = true) ∧
    checkWebEntityStatus envC1 "example.com" =
      Except.error "Host resolves to private IP" := by
  have h1 : normalizeUrl envC1 "example.com" = Except.ok urlExample := rfl
  have h2 : ∃ ip ∈ resolveDns envC1 urlExample.hostname, isPrivateIp ip = true := by
    decide
  exact ⟨h1, h2, (c1_ssrf_blocked_after_dns envC1 "example.com" urlExample h1 h2).1⟩

theorem c2_amended_witness :
    (∀ (u2 : String), ∀ c ∈ (envC2w.net u2).chunks, utf8Len c ≤ 3) ∧
    (utf8Len ((fetchWithLimits envC2w "u" 5 0).1).bodyText ≤ MAX_BYTES ∧
     ((fetchWithLimits envC2w "u" 5 0).1).bytesDownloaded ≤ MAX_BYTES + 3 ∧
     (∃ k, ((fetchWithLimits envC2w "u" 5 0).1).bodyText =
       joinChunks (((envC2w.net
         ((fetchWithLimits envC2w "u" 5 0).1).finalUrl).chunks).take k))) := by
  have hC : ∀ (u2 : String), ∀ c ∈ (envC2w.net u2).chunks, utf8Len c ≤ 3 := by
    intro u2 c hc
    have : c = "abc" := by
      simpa [envC2w] using hc
    rw [this]
    decide
  exact ⟨hC, c2_amended envC2w "u" 5 0 3 hC⟩

theorem c3_witness :
    (∀ i, i < 5 →
      isRedirectStatus (envC3.net (usC3 i)).status = true ∧
      locTruthy (envC3.net (usC3 i)).location = some (lsC3 i) ∧
      usC3 (i + 1) = envC3.resolveLoc (lsC3 i) (usC3 i)) ∧
    isRedirectStatus (envC3.net (usC3 5)).status = true ∧
    ((fetchWithLimits envC3 (usC3 0) 5 0).1).status = (envC3.net (usC3 5)).status ∧
    ((fetchWithLimits envC3 (usC3 0) 5 0).1).finalUrl = usC3 5 := by
  have hchain : ∀ i, i < 5 →
      isRedirectStatus (envC3.net (usC3 i)).status = true ∧
      locTruthy (envC3.net (usC3 i)).location = some (lsC3 i) ∧
      usC3 (i + 1) = envC3.resolveLoc (lsC3 i) (usC3 i) := by
    intro i hi
    interval_cases i <;> exact ⟨rfl, rfl, rfl⟩
  have h6 : isRedirectStatus (envC3.net (usC3 5)).status = true := rfl
  have happ := c3_redirect_cap envC3 usC3 lsC3 0 hchain h6
  exact ⟨hchain, h6, happ.2.1, happ.2.2.1⟩

theorem c4_witness :
    normalizeUrl envC4 "example.com" = Except.ok urlExample ∧
    checkWebEntityStatus envC4 "example.com" = Except.ok resC4 ∧
    resC4.exists_ = true ∧
    (computeConfidence
      { reachable := true, httpStatus := 200, sslValid := true,
        contentTypeHtml := true, contentLengthOk := false, hasTitle := true,
        hasContactOrLegal := true, suspectedParked := false } =
      clamp01 (specScoreSum
        { reachable := true, httpStatus := 200, sslValid := true,
          contentTypeHtml := true, contentLengthOk := false, hasTitle := true,
          hasContactOrLegal := true, suspectedParked := false }) ∧
     resC4.suspected_parked_domain =
       some (specSuspectedParked
         (extractSignalsFromHtml (probeOutcome envC4 urlExample).bodyText)
         (probeOutcome envC4 urlExample).bytesDownloaded) ∧
     resC4.confidence_score = clamp01 (specScoreSum
       { reachable := true
         httpStatus := (probeOutcome envC4 urlExample).status
         sslValid := decide (urlExample.protocol = "https:")
         contentTypeHtml :=
           strIncludes (probeOutcome envC4 urlExample).contentType "text/html"
         contentLengthOk :=
           decide (5000 ≤ (probeOutcome envC4 urlExample).bytesDownloaded)
         hasTitle :=
           (extractSignalsFromHtml (probeOutcome envC4 urlExample).bodyText).has_title
         hasContactOrLegal :=
           (extractSignalsFromHtml
             (probeOutcome envC4 urlExample).bodyText).has_contact_like_links ||
           (extractSignalsFromHtml
             (probeOutcome envC4 urlExample).bodyText).has_legal_like_links
         suspectedParked := specSuspectedParked
           (extractSignalsFromHtml (probeOutcome envC4 urlExample).bodyText)
           (probeOutcome envC4 urlExample).bytesDownloaded })) := by
  have h1 : normalizeUrl envC4 "example.com" = Except.ok urlExample := rfl
  have h2 : checkWebEntityStatus envC4 "example.com" = Except.ok resC4 := rfl
  have h3 : resC4.exists_ = true := rfl
  exact ⟨h1, h2, h3,
    c4_confidence_formula _ envC4 "example.com" urlExample resC4 h1 h2 h3⟩

theorem c6_witness :
    normalizeUrl envC6 "nohost.example" = Except.ok urlC6 ∧
    resolveDns envC6 urlC6.hostname = [] ∧
    checkWebEntityStatus envC6 "nohost.example" = Except.ok
      { exists_ := false, reachable := false, http_status := none,
        final_url := none, response_time_ms := none, ssl_valid := none,
        suspected_parked_domain := none, signals := [],
        confidence_score := 0, checked_at := envC6.nowIso } := by
  have h1 : normalizeUrl envC6 "nohost.example" = Except.ok urlC6 := rfl
  have h2 : resolveDns envC6 urlC6.hostname = [] := rfl
  exact ⟨h1, h2, (c6_not_found_result envC6 "nohost.example" urlC6 h1 h2).1⟩

theorem c7_amended_witness :
    (∀ h : String,
      List.Perm (resolveDns { envC7w with resolve4 := r4w, resolve6 := r6w } h)
        (resolveDns envC7w h)) ∧
    ((∀ (e2 : Env) (hst : String), e2.resolve4 hst = none →
      resolveDns e2 hst = (e2.resolve6 hst).getD []) ∧
    (∀ (e2 : Env) (hst : String), e2.resolve6 hst = none →
      resolveDns e2 hst = (e2.resolve4 hst).getD []) ∧
    checkWebEntityStatus { envC7w with resolve4 := r4w, resolve6 := r6w } "x" =
      checkWebEntityStatus envC7w "x") := by
  have hperm : ∀ h : String,
      List.Perm (resolveDns { envC7w with resolve4 := r4w, resolve6 := r6w } h)
        (resolveDns envC7w h) :=
    fun _ => List.Perm.swap "1.2.3.4" "2606:2800::1" []
  exact ⟨hperm, c7_amended envC7w r4w r6w "x" hperm⟩

theorem c10_witness :
    isIPv4String "127.0.0.1" = true ∧
    isPrivateIp "127.0.0.1" = true ∧
    startsWithHttpScheme (strTrim "https://[::ffff:127.0.0.1]") = true ∧
    envC10.parseUrl (strTrim "https://[::ffff:127.0.0.1]") = some uC10 ∧
    uC10.hostname = "::ffff:" ++ "127.0.0.1" ∧
    resolveDns envC10 uC10.hostname = ["::ffff:" ++ "127.0.0.1"] ∧
    (isPrivateIp ("::ffff:" ++ "127.0.0.1") = false ∧
     normalizeUrl envC10 "https://[::ffff:127.0.0.1]" = Except.ok uC10 ∧
     ∃ r, checkWebEntityStatus envC10 "https://[::ffff:127.0.0.1]" = Except.ok r ∧
       r.exists_ = true ∧ r.reachable = true ∧
       r.http_status = some (probeOutcome envC10 uC10).status) := by
  have hd4 : isIPv4String "127.0.0.1" = true := by decide
  have hdpriv : isPrivateIp "127.0.0.1" = true := by decide
  have hsch : startsWithHttpScheme (strTrim "https://[::ffff:127.0.0.1]") = true := by
    decide
  have hparse : envC10.parseUrl (strTrim "https://[::ffff:127.0.0.1]") = some uC10 := rfl
  have hh : uC10.hostname = "::ffff:" ++ "127.0.0.1" := rfl
  have hips : resolveDns envC10 uC10.hostname = ["::ffff:" ++ "127.0.0.1"] := rfl
  exact ⟨hd4, hdpriv, hsch, hparse, hh, hips,
    c10_mapped_ipv6_not_private "127.0.0.1" envC10 "https://[::ffff:127.0.0.1]" uC10
      hd4 hdpriv hsch hparse rfl rfl rfl hh hips⟩

end WebEntity
